import Mathlib

/-!
# Verification of the Kindergeld repository's validation and editing scripts

Shallow embedding of the three Python source files:

* `.github/scripts/validate_odps_odcs.py` — schema-driven validation of
  `dataproduct.yaml` and of the contract files under `contracts/`, plus a
  filename-convention checker and the `main` aggregation;
* `edit_contract.py` — the CLI contract editor (load, interactive edit,
  validate, save);
* `streamlit_edit_contract.py` — the web form editor (`render_field`).

YAML documents are modelled by the inductive type `Yaml`; JSON-Schema
documents by `JSchema` covering the keywords the scripts touch
(`type`, `required`, `properties`, `items`, `enum`, `default`,
`description`).  The `jsonschema.validate` call is modelled by `jvalidate`,
faithful to the library's behaviour on these keywords: it reports the first
violation found, and for a missing required property the error's
`absolute_path` is the path of the *object* that is missing the property
(the missing key itself appears only in the error message).

Files and directories are passed in explicitly: a directory is an optional
list of named entries (`none` = the directory does not exist), a YAML file's
parse result is an optional value (`none` = unreadable or invalid YAML).
-/

set_option autoImplicit false

namespace Kindergeld

/-- A YAML/JSON value as produced by `yaml.safe_load` / `json.load`.
Mappings keep insertion order, as Python dicts do; numbers are split into
integers and (idealised, rational-valued) floats as Python does. -/
inductive Yaml where
  | ynull
  | ybool (b : Bool)
  | yint (n : Int)
  | ynum (q : Rat)
  | ystr (s : String)
  | yarr (items : List Yaml)
  | yobj (fields : List (String × Yaml))
deriving Repr

mutual

/-- Structural equality of YAML values (Python's `==` on loaded data). -/
def Yaml.beq : Yaml → Yaml → Bool
  | .ynull, .ynull => true
  | .ybool a, .ybool b => a == b
  | .yint a, .yint b => a == b
  | .ynum a, .ynum b => a == b
  | .ystr a, .ystr b => a == b
  | .yarr a, .yarr b => Yaml.beqList a b
  | .yobj a, .yobj b => Yaml.beqFields a b
  | _, _ => false

def Yaml.beqList : List Yaml → List Yaml → Bool
  | [], [] => true
  | x :: xs, y :: ys => Yaml.beq x y && Yaml.beqList xs ys
  | _, _ => false

def Yaml.beqFields : List (String × Yaml) → List (String × Yaml) → Bool
  | [], [] => true
  | (k, x) :: xs, (k', y) :: ys => k == k' && Yaml.beq x y && Yaml.beqFields xs ys
  | _, _ => false

end

instance : BEq Yaml := ⟨Yaml.beq⟩

/-- The keys of a YAML mapping, in order. -/
def objKeys (m : List (String × Yaml)) : List String := m.map Prod.fst

/-- Python's `key in dict` on a mapping. -/
def hasKey (m : List (String × Yaml)) (k : String) : Bool :=
  (objKeys m).contains k

/-- Python's `dict.get`: first binding of the key, if any. -/
def getKey (m : List (String × Yaml)) (k : String) : Option Yaml :=
  (m.find? (fun p => p.1 = k)).map Prod.snd

/-- Python's `dict[key] = v`: replace the value at an existing key in place,
otherwise append the new binding at the end (insertion order). -/
def setKey (m : List (String × Yaml)) (k : String) (v : Yaml) :
    List (String × Yaml) :=
  match m with
  | [] => [(k, v)]
  | (k', v') :: rest =>
      if k' = k then (k', v) :: rest else (k', v') :: setKey rest k v

/-- A JSON-Schema document, restricted to the keywords the repository's
scripts read.  `none` in an optional field models the keyword being absent
from the schema object (Python's `"kw" in schema` / `schema.get("kw")`). -/
inductive JSchema where
  | mk
      (stype : Option String)
      (required : List String)
      (properties : Option (List (String × JSchema)))
      (items : Option JSchema)
      (enum : Option (List Yaml))
      (default : Option Yaml)
      (descr : Option String)

namespace JSchema

def stype : JSchema → Option String
  | .mk t _ _ _ _ _ _ => t

def required : JSchema → List String
  | .mk _ r _ _ _ _ _ => r

def properties : JSchema → Option (List (String × JSchema))
  | .mk _ _ p _ _ _ _ => p

def items : JSchema → Option JSchema
  | .mk _ _ _ i _ _ _ => i

def enum : JSchema → Option (List Yaml)
  | .mk _ _ _ _ e _ _ => e

def default : JSchema → Option Yaml
  | .mk _ _ _ _ _ d _ => d

def descr : JSchema → Option String
  | .mk _ _ _ _ _ _ d => d

/-- A schema object with every keyword absent (`{}` accepts everything). -/
def empty : JSchema := .mk none [] none none none none none

end JSchema

/-- One step of a `jsonschema` error path (`e.absolute_path` elements):
a mapping key or an array index. -/
inductive PathItem where
  | key (k : String)
  | idx (i : Nat)
deriving DecidableEq, Repr

/-- A `jsonschema.ValidationError`, reduced to the two fields the scripts
print: the message and the absolute path to the offending instance node. -/
structure VError where
  message : String
  path : List PathItem
deriving DecidableEq, Repr

/-- The message `jsonschema` produces for a missing required property. -/
def requiredMessage (k : String) : String :=
  "'" ++ k ++ "' is a required property"

/-- The message for a `type` keyword violation. -/
def typeMessage (t : String) : String :=
  "instance is not of type '" ++ t ++ "'"

/-- The message for an `enum` keyword violation. -/
def enumMessage : String :=
  "instance is not one of the enumerated values"

/-- Does a YAML value satisfy a JSON-Schema `type` keyword?  As in
`jsonschema`: `"number"` accepts both integers and floats, every other
type name accepts exactly its own kind, and an unknown type name
constrains nothing. -/
def typeMatches (t : String) (v : Yaml) : Bool :=
  match t with
  | "null" => (v matches .ynull)
  | "boolean" => (v matches .ybool _)
  | "integer" => (v matches .yint _)
  | "number" => ((v matches .yint _) || (v matches .ynum _))
  | "string" => (v matches .ystr _)
  | "array" => (v matches .yarr _)
  | "object" => (v matches .yobj _)
  | _ => true

/-- The `type` keyword check (no keyword: no constraint). -/
def typeCheck (stype? : Option String) (v : Yaml) : Option VError :=
  match stype? with
  | some t => if typeMatches t v then none else some ⟨typeMessage t, []⟩
  | none => none

/-- The `enum` keyword check (no keyword: no constraint). -/
def enumCheck (enum? : Option (List Yaml)) (v : Yaml) : Option VError :=
  match enum? with
  | some vs => if vs.contains v then none else some ⟨enumMessage, []⟩
  | none => none

/-- The `required` keyword check on an object instance: the error reports
the first missing required property, with the (relative) path of the
object itself — the missing key appears only in the message, exactly as in
`jsonschema`. -/
def requiredCheck (req : List String) (m : List (String × Yaml)) :
    Option VError :=
  match req.find? (fun k => !hasKey m k) with
  | some k => some ⟨requiredMessage k, []⟩
  | none => none

/-- Keyword sequencing: keep the first reported error. -/
def chkSeq (a : Option VError) (b : Unit → Option VError) : Option VError :=
  match a with
  | some e => some e
  | none => b ()

mutual

/-- Model of `jsonschema.validate(instance, schema)` restricted to the
keywords `type`, `enum`, `required`, `properties` and `items`: returns the
first `ValidationError` (or `none` on success).  Keywords are applied in
that fixed order; `required` and `properties` only constrain object
instances and `items` only arrays, as in the library.  A `required` error
carries the path of the object missing the property, not the missing key. -/
def jvalidate (schema : JSchema) (v : Yaml) : Option VError :=
  match schema with
  | .mk stype? req props? items? enum? _ _ =>
      chkSeq (typeCheck stype? v) (fun _ =>
        chkSeq (enumCheck enum? v) (fun _ =>
          match v with
          | .yobj m =>
              chkSeq (requiredCheck req m) (fun _ =>
                match props? with
                | some props => jvalidateProps props m
                | none => none)
          | .yarr l =>
              match items? with
              | some isch => jvalidateItems isch l 0
              | none => none
          | _ => none))
termination_by (sizeOf schema, sizeOf v)

/-- Check each declared property that is present in the instance, in schema
order, prefixing the property key onto any error's path. -/
def jvalidateProps (props : List (String × JSchema)) (m : List (String × Yaml)) :
    Option VError :=
  match props with
  | [] => none
  | (k, sub) :: rest =>
      match getKey m k with
      | some v =>
          match jvalidate sub v with
          | some e => some ⟨e.message, .key k :: e.path⟩
          | none => jvalidateProps rest m
      | none => jvalidateProps rest m
termination_by (sizeOf props, sizeOf m)

/-- Check each array element against the `items` schema, prefixing the
element index onto any error's path. -/
def jvalidateItems (isch : JSchema) (l : List Yaml) (i : Nat) : Option VError :=
  match l with
  | [] => none
  | v :: rest =>
      match jvalidate isch v with
      | some e => some ⟨e.message, .idx i :: e.path⟩
      | none => jvalidateItems isch rest (i + 1)
termination_by (sizeOf isch, sizeOf l)

end

/-- Model of `validate_odps_file`: the file's parse result is passed in
(`none` models `load_yaml_file` returning `None`).  Returns the success
flag together with the reported `ValidationError`, if any. -/
def validate_odps_file (content : Option Yaml) (schema : JSchema) :
    Bool × Option VError :=
  match content with
  | none => (false, none)
  | some inst =>
      match jvalidate schema inst with
      | none => (true, none)
      | some e => (false, some e)

/-! ## ODCS contract validation (`validate_odcs_contracts` and friends) -/

/-- Python's `pat in s` substring test. -/
def strHasInfix (s pat : String) : Bool :=
  s.toList.tails.any (fun t => pat.toList.isPrefixOf t)

/-- A file in the contracts directory: its name and its parse result, a
full YAML value (`none` models `load_yaml_file` returning `None` on a
missing or unparseable file; a contract file may hold any YAML document,
not only a mapping). -/
structure CFile where
  name : String
  content : Option Yaml
deriving Repr

/-- Python's `s in v` containment test on a loaded YAML value: key lookup
on a mapping, substring test on a string, element equality on a list —
and an uncaught `TypeError` (`none`) on the non-iterable scalars
`int`/`float`/`bool`/`None`. -/
def pyIn (s : String) (v : Yaml) : Option Bool :=
  match v with
  | .yobj m => some (hasKey m s)
  | .ystr t => some (strHasInfix t s)
  | .yarr l => some (l.contains (.ystr s))
  | _ => none

/-- Python's `v[k]` for a string key: mapping lookup (`none` covers the
`KeyError` on an absent key and the `TypeError` on non-mapping values). -/
def pyGetItem (v : Yaml) (k : String) : Option Yaml :=
  match v with
  | .yobj m => getKey m k
  | _ => none

/-- The `for section in required_sections` loop of
`validate_odcs_structure`: `some false` at the first absent section,
`none` when the `in` test raises. -/
def sectionsCheck (v : Yaml) : List String → Option Bool
  | [] => some true
  | s :: rest =>
      match pyIn s v with
      | none => none
      | some false => some false
      | some true => sectionsCheck v rest

/-- The version-format block of `validate_odcs_structure`
(`if 'info' in contract_data and 'version' in contract_data['info']`):
it only prints a warning, so every non-raising path yields `some true`;
`none` models the `in`/subscript operations raising on non-mapping
values. -/
def versionWarn (v : Yaml) : Option Bool :=
  match pyIn "info" v with
  | none => none
  | some false => some true
  | some true =>
      match pyGetItem v "info" with
      | none => none
      | some infoVal =>
          match pyIn "version" infoVal with
          | none => none
          | some false => some true
          | some true =>
              match pyGetItem infoVal "version" with
              | none => none
              | some _ => some true

/-- Model of `validate_odcs_structure`: requires the three fixed sections,
then the warning-only version check.  `none` models an uncaught
`TypeError` (`'...' not in contract_data` on a non-iterable scalar such
as an `int` loaded from a file holding `42`), which aborts the whole
validation run. -/
def validate_odcs_structure (v : Yaml) : Option Bool :=
  match sectionsCheck v ["dataContractSpecification", "id", "info"] with
  | none => none
  | some false => some false
  | some true => versionWarn v

/-- The per-file body of the loop in `validate_odcs_contracts`: a load
failure or a document loading as `None` is counted invalid and skipped
(`continue`); then JSON-Schema validation when a schema was loaded (a
schema error skips the structure check via `continue`); then the
structure check, whose `TypeError` (`none`) propagates. -/
def contract_file_valid (schema? : Option JSchema) (content : Option Yaml) :
    Option Bool :=
  match content with
  | none => some false
  | some .ynull => some false
  | some v =>
      match schema? with
      | some sch =>
          match jvalidate sch v with
          | some _ => some false
          | none => validate_odcs_structure v
      | none => validate_odcs_structure v

/-- Does the filename match a `*.<ext>` glob (suffix match)? -/
def strEndsWith (s suffix : String) : Bool :=
  suffix.toList.isSuffixOf s.toList

/-- The files `Path(contracts_dir).glob("*.yaml") + glob("*.yml")`
enumerates, in that order. -/
def yamlFilesOf (files : List CFile) : List CFile :=
  files.filter (fun f => strEndsWith f.name ".yaml")
    ++ files.filter (fun f => strEndsWith f.name ".yml")

/-- The `for contract_file in yaml_files` loop, threading the `all_valid`
flag; a `TypeError` from the structure check (`none`) aborts the loop, so
the files after it are never checked. -/
def walkFiles (schema? : Option JSchema) : List CFile → Bool → Option Bool
  | [], acc => some acc
  | f :: rest, acc =>
      match contract_file_valid schema? f.content with
      | none => none
      | some b => walkFiles schema? rest (acc && b)

/-- Model of `validate_odcs_contracts`: `dir? = none` models a missing
contracts directory.  An empty enumeration returns `True`; otherwise the
per-file loop runs with `all_valid` initially `True` — and `none` models
the loop aborting with an uncaught `TypeError`, in which case the
function never returns. -/
def validate_odcs_contracts (dir? : Option (List CFile))
    (schema? : Option JSchema) : Option Bool :=
  match dir? with
  | none => some false
  | some files =>
      let yamlFiles := yamlFilesOf files
      if yamlFiles.isEmpty then some true
      else walkFiles schema? yamlFiles true

/-! ## Naming conventions (`check_file_naming_conventions`) -/

/-- Python's `s.count(c)` for a single character. -/
def strCount (s : String) (c : Char) : Nat :=
  (s.toList.filter (fun x => x = c)).length

/-- Python's `str.islower()`: at least one cased character and no uppercase
one (ASCII letters are the cased characters appearing in filenames). -/
def strIsLower (s : String) : Bool :=
  s.toList.any Char.isAlpha && s.toList.all (fun c => !c.isUpper)

/-- Does a contract filename satisfy `'-v' in filename and
filename.count('-') >= 2`? -/
def contractNameOk (filename : String) : Bool :=
  strHasInfix filename "-v" && decide (2 ≤ strCount filename '-')

/-- The issue string appended for a bad contract filename. -/
def contractIssueMsg (filename : String) : String :=
  "Contract file naming: " ++ filename ++
    " should follow 'name-with-dashes-vX.Y.Z.yaml'"

/-- The issue string appended for a non-lowercase root YAML filename. -/
def rootIssueMsg (filename : String) : String :=
  "Root YAML file: " ++ filename ++ " should be lowercase"

/-- Issues collected from `contracts_dir.glob("*.yaml")` (note: `*.yml`
files are not examined). -/
def contractNamingIssues (contractNames : List String) : List String :=
  (contractNames.filter (fun n => strEndsWith n ".yaml")).filterMap
    (fun n => if contractNameOk n then none else some (contractIssueMsg n))

/-- Issues collected from `base_path.glob("*.yaml")` at the repository
root. -/
def rootNamingIssues (rootNames : List String) : List String :=
  (rootNames.filter (fun n => strEndsWith n ".yaml")).filterMap
    (fun n => if strIsLower n then none else some (rootIssueMsg n))

/-- Model of `check_file_naming_conventions`: collect the issues (contracts
directory first, skipped entirely when the directory does not exist, then
root) and return `True` exactly when there are none.  The issues list is
returned too, to talk about what gets reported. -/
def check_file_naming_conventions (contractsDirNames? : Option (List String))
    (rootNames : List String) : Bool × List String :=
  let issues :=
    (match contractsDirNames? with
     | some names => contractNamingIssues names
     | none => []) ++ rootNamingIssues rootNames
  (issues.isEmpty, issues)

/-! ## The `main` aggregation -/

/-- The inputs `main` consumes, all made explicit: schema load results, the
`dataproduct.yaml` parse result (`none` = the file does not exist,
`some none` = it exists but fails to load), the contracts directory and the
repository-root file names. -/
structure RepoState where
  odpsSchema : Option JSchema
  odcsSchema : Option JSchema
  odpsFile : Option (Option Yaml)
  contractsDir : Option (List CFile)
  rootNames : List String

/-- The contracts-directory names as the naming checker sees them. -/
def RepoState.contractNames (st : RepoState) : Option (List String) :=
  st.contractsDir.map (fun files => files.map CFile.name)

/-- How a `main` run can end: the early `sys.exit(1)` when the ODPS schema
cannot be loaded; an uncaught exception from the contracts walk (the
interpreter prints a traceback and exits 1); or the final verdict, with
`validation_success` and-ed across the ODPS file check, the contracts
check and the naming check. -/
inductive MainOutcome where
  | schemaAbort
  | crashed
  | finished (success : Bool)
deriving DecidableEq, Repr

/-- The process exit code of each outcome: only a fully successful run
exits 0. -/
def mainExitCode : MainOutcome → Nat
  | .schemaAbort => 1
  | .crashed => 1
  | .finished b => if b then 0 else 1

/-- Model of `main`. -/
def mainRun (st : RepoState) : MainOutcome :=
  match st.odpsSchema with
  | none => .schemaAbort
  | some odpsSchema =>
      let odpsOk :=
        match st.odpsFile with
        | none => false
        | some content => (validate_odps_file content odpsSchema).1
      match validate_odcs_contracts st.contractsDir st.odcsSchema with
      | none => .crashed
      | some contractsOk =>
          let namingOk :=
            (check_file_naming_conventions st.contractNames st.rootNames).1
          .finished (odpsOk && contractsOk && namingOk)

/-! ## YAML serialisation (`yaml.dump` / `yaml.safe_load` in `edit_contract.py`)

The emitter and parser are modelled at token granularity: a serialised file
is a token stream rather than a character string, abstracting YAML's
character-level syntax while keeping the structure-level round trip
(`yaml.safe_load(yaml.dump(x)) == x`) a real theorem about real recursive
functions. -/

/-- One token of a serialised YAML document. -/
inductive Tok where
  | tnull
  | tbool (b : Bool)
  | tint (n : Int)
  | tnum (q : Rat)
  | tstr (s : String)
  | tArrOpen
  | tArrClose
  | tObjOpen
  | tObjClose
  | tKey (k : String)
deriving DecidableEq, Repr

mutual

/-- Emit a YAML value as a token stream (`yaml.dump`).  `sort_keys=False`
is used in `save_contract`, so mapping order is emitted as-is. -/
def dumpY : Yaml → List Tok
  | .ynull => [.tnull]
  | .ybool b => [.tbool b]
  | .yint n => [.tint n]
  | .ynum q => [.tnum q]
  | .ystr s => [.tstr s]
  | .yarr l => .tArrOpen :: dumpArr l
  | .yobj m => .tObjOpen :: dumpObj m

def dumpArr : List Yaml → List Tok
  | [] => [.tArrClose]
  | y :: ys => dumpY y ++ dumpArr ys

def dumpObj : List (String × Yaml) → List Tok
  | [] => [.tObjClose]
  | (k, y) :: ms => .tKey k :: (dumpY y ++ dumpObj ms)

end

mutual

/-- Fuel needed by the parser to consume one dumped value. -/
def sizeY : Yaml → Nat
  | .yarr l => 1 + sizeA l
  | .yobj m => 1 + sizeO m
  | _ => 1

def sizeA : List Yaml → Nat
  | [] => 1
  | y :: ys => 1 + max (sizeY y) (sizeA ys)

def sizeO : List (String × Yaml) → Nat
  | [] => 1
  | (_, y) :: ms => 1 + max (sizeY y) (sizeO ms)

end

mutual

/-- Parse one YAML value from a token stream (`yaml.safe_load`), returning
the value and the remaining tokens; `none` on malformed input or exhausted
fuel. -/
def parseY : Nat → List Tok → Option (Yaml × List Tok)
  | 0, _ => none
  | fuel + 1, toks =>
      match toks with
      | .tnull :: rest => some (.ynull, rest)
      | .tbool b :: rest => some (.ybool b, rest)
      | .tint n :: rest => some (.yint n, rest)
      | .tnum q :: rest => some (.ynum q, rest)
      | .tstr s :: rest => some (.ystr s, rest)
      | .tArrOpen :: rest =>
          match parseArr fuel rest with
          | some (l, rest') => some (.yarr l, rest')
          | none => none
      | .tObjOpen :: rest =>
          match parseObj fuel rest with
          | some (m, rest') => some (.yobj m, rest')
          | none => none
      | _ => none

/-- Parse array elements up to the closing token. -/
def parseArr : Nat → List Tok → Option (List Yaml × List Tok)
  | 0, _ => none
  | fuel + 1, toks =>
      if toks.head? = some Tok.tArrClose then some ([], toks.tail)
      else
        match parseY fuel toks with
        | some (y, rest) =>
            match parseArr fuel rest with
            | some (l, rest') => some (y :: l, rest')
            | none => none
        | none => none

/-- Parse mapping entries up to the closing token. -/
def parseObj : Nat → List Tok → Option (List (String × Yaml) × List Tok)
  | 0, _ => none
  | fuel + 1, toks =>
      if toks.head? = some Tok.tObjClose then some ([], toks.tail)
      else
        match toks with
        | .tKey k :: rest =>
            match parseY fuel rest with
            | some (y, rest') =>
                match parseObj fuel rest' with
                | some (m, rest'') => some ((k, y) :: m, rest'')
                | none => none
            | none => none
        | _ => none

end

/-! ## `edit_contract.py`: load, validate, save, and `main`'s decision -/

/-- The on-disk state the CLI editor touches: file contents by path. -/
def FS : Type := List (String × List Tok)

/-- Read a file's token stream from the disk state. -/
def fsGet (fs : FS) (path : String) : Option (List Tok) :=
  (List.find? (fun p => p.1 = path) fs).map Prod.snd

/-- Write a file, replacing any previous content at the path. -/
def fsSet (fs : FS) (path : String) (toks : List Tok) : FS :=
  match fs with
  | [] => [(path, toks)]
  | (p, t) :: rest =>
      if p = path then (p, toks) :: rest else (p, t) :: fsSet rest path toks

/-- Model of `save_contract`: `yaml.dump(data, f, sort_keys=False)`. -/
def save_contract (fs : FS) (path : String) (data : Yaml) : FS :=
  fsSet fs path (dumpY data)

/-- Model of `load_contract`: an existing file is parsed with
`yaml.safe_load` (`none` models the parse raising), a missing file starts
fresh with the empty mapping `{}`. -/
def load_contract (fs : FS) (path : String) : Option Yaml :=
  match fsGet fs path with
  | some toks =>
      match parseY toks.length toks with
      | some (y, _) => some y
      | none => none
  | none => some (.yobj [])

/-- Model of `validate_contract`: `True` exactly when `jsonschema.validate`
raises no `ValidationError`. -/
def validate_contract (data : Yaml) (schema : JSchema) : Bool :=
  (jvalidate schema data).isNone

/-- The tail of `edit_contract.py`'s `main`: save the edited data when it
validates, otherwise leave the disk untouched. -/
def main_save (fs : FS) (path : String) (updated : Yaml) (schema : JSchema) :
    FS :=
  if validate_contract updated schema then save_contract fs path updated
  else fs

/-! ## `edit_contract.py`: the interactive editing loop -/

/-- Python's `new_val.lower() in ["true", "yes", "1"]`. -/
def coerceBool (s : String) : Bool :=
  ["true", "yes", "1"].contains s.toLower

/-- Nonempty digit-string value, for the numeric-input models. -/
def digitsVal (cs : List Char) : Option Nat :=
  if cs.isEmpty then none
  else if cs.all Char.isDigit then
    some (cs.foldl (fun a c => 10 * a + (c.toNat - 48)) 0)
  else none

/-- Strip an optional sign, reporting whether it was `-`. -/
def splitSign (cs : List Char) : Bool × List Char :=
  match cs with
  | '-' :: rest => (true, rest)
  | '+' :: rest => (false, rest)
  | _ => (false, cs)

/-- Model of Python's `float(s)` on plain decimal literals, with floats
idealised as rationals; `none` models `ValueError`. -/
def pyFloat (s : String) : Option Rat :=
  let (neg, body) := splitSign s.toList
  let q? : Option Rat :=
    match body.splitOn '.' with
    | [ip] => (digitsVal ip).map (fun n => (n : Rat))
    | [ip, fp] =>
        match digitsVal ip, digitsVal fp with
        | some n, some f =>
            some ((n : Rat) + (f : Rat) / ((10 : Rat) ^ fp.length))
        | some n, none => if fp.isEmpty then some ((n : Rat)) else none
        | none, some f =>
            if ip.isEmpty then some ((f : Rat) / ((10 : Rat) ^ fp.length))
            else none
        | none, none => none
    | _ => none
  q?.map (fun q => if neg then -q else q)

/-- Model of Python's `int(s)`; `none` models `ValueError`. -/
def pyInt (s : String) : Option Int :=
  let (neg, body) := splitSign s.toList
  (digitsVal body).map (fun n => if neg then -(n : Int) else n)

/-- The value assigned for one scalar prompt answer, by declared type:
`some (some v)` assigns `v`, `some none` assigns nothing (a type name with
no branch), `none` models `int()`/`float()` raising `ValueError`. -/
def scalarAssign (t : String) (s : String) : Option (Option Yaml) :=
  match t with
  | "string" => some (some (.ystr s))
  | "number" => (pyFloat s).map (fun q => some (.ynum q))
  | "integer" => (pyInt s).map (fun n => some (.yint n))
  | "boolean" => some (some (.ybool (coerceBool s)))
  | _ => some none

/-- One iteration of the `for key, props in properties.items()` loop.
`resp` is what `questionary.text(...).ask()` returned for this key
(`none` models a cancelled prompt, which Python treats as falsy just like
the empty string).  When the declared `type` is not a string — e.g. absent,
or a list of type names — neither branch fires: `isinstance(..., str)` is
false and a non-string never equals `"array"`. -/
def editStep (data : List (String × Yaml)) (key : String) (p : JSchema)
    (resp : Option String) : Option (List (String × Yaml)) :=
  match p.stype with
  | some t =>
      match resp with
      | some s =>
          if s = "" then some data
          else
            match scalarAssign t s with
            | some (some v) => some (setKey data key v)
            | some none => some data
            | none => none
      | none => some data
  | none => some data

/-- The editing loop over the schema's property list, threading the edited
mapping; `none` models an uncaught `ValueError` aborting the run. -/
def editProps (data : List (String × Yaml))
    (props : List (String × JSchema)) (resp : String → Option String) :
    Option (List (String × Yaml)) :=
  match props with
  | [] => some data
  | (k, p) :: rest =>
      match editStep data k p (resp k) with
      | some d => editProps d rest resp
      | none => none

/-- Model of `edit_contract(data, schema)`: iterate over
`schema.get("properties", {})` and return the edited mapping. -/
def edit_contract (data : List (String × Yaml)) (schema : JSchema)
    (resp : String → Option String) : Option (List (String × Yaml)) :=
  editProps data (schema.properties.getD []) resp

/-! ## `streamlit_edit_contract.py`: `render_field` -/

/-- Python's truthiness on loaded YAML values (`default or ""`). -/
def yTruthy : Yaml → Bool
  | .ynull => false
  | .ybool b => b
  | .yint n => n != 0
  | .ynum q => q != 0
  | .ystr s => s != ""
  | .yarr l => !l.isEmpty
  | .yobj m => !m.isEmpty

/-- Python's `str()` on loaded YAML scalars (containers idealised; no claim
depends on their string form). -/
def strOfY : Yaml → String
  | .ynull => "None"
  | .ybool b => if b then "True" else "False"
  | .yint n => toString n
  | .ynum q => toString q
  | .ystr s => s
  | .yarr _ => "[...]"
  | .yobj _ => "\x7b...\x7d"

/-- The widget's initial value source: `data.get(key, schema.get("default"))`. -/
def renderDefault (data : List (String × Yaml)) (key : String)
    (default? : Option Yaml) : Option Yaml :=
  match getKey data key with
  | some v => some v
  | none => default?

/-- `st.selectbox`: the option at the preselected index (the default when
it is one of the options, otherwise index 0). -/
def selectboxValue (opts : List Yaml) (dflt : Option Yaml) : Yaml :=
  match dflt with
  | some d => if opts.contains d then d else opts.headD .ynull
  | none => opts.headD .ynull

/-- `st.text_input(..., value=default or "")`: the initial text. -/
def textValue (dflt : Option Yaml) : String :=
  match dflt with
  | some d => if yTruthy d then strOfY d else ""
  | none => ""

/-- The array widget's initial text:
`", ".join(map(str, default)) if isinstance(default, list) else ""`. -/
def arrayRaw (dflt : Option Yaml) : String :=
  match dflt with
  | some (.yarr l) => String.intercalate ", " (l.map strOfY)
  | _ => ""

/-- `[x.strip() for x in raw.split(",")] if raw else []`. -/
def splitItems (raw : String) : List Yaml :=
  if raw = "" then [] else (raw.splitOn ",").map (fun x => Yaml.ystr x.trim)

mutual

/-- Model of `render_field(key, schema, data)` on a first render with no
operator interaction: every widget returns the value it was initialised
with.  Returns the updated mapping together with the trace of the
*sub-field* paths it recursed into (a call's own `path ++ [key]` entry is
logged by the enclosing loop, `render_props`).  `none` models the Python
code raising when an existing non-mapping value sits where an object
schema recurses. -/
def render_field (path : List String) (key : String) (schema : JSchema)
    (data : List (String × Yaml)) :
    Option (List (String × Yaml) × List (List String)) :=
  match schema with
  | .mk stype? _ props? _ enum? default? _ =>
      match stype? with
      | some "string" =>
          match enum? with
          | some opts =>
              some (setKey data key
                  (selectboxValue opts (renderDefault data key default?)), [])
          | none =>
              some (setKey data key
                  (.ystr (textValue (renderDefault data key default?))), [])
      | some "array" =>
          some (setKey data key
              (.yarr (splitItems (arrayRaw (renderDefault data key default?)))),
            [])
      | some "object" =>
          match props? with
          | some props =>
              match getKey data key with
              | some (.yobj inner) =>
                  match render_props (path ++ [key]) props inner with
                  | some (inner', tr) =>
                      some (setKey data key (.yobj inner'), tr)
                  | none => none
              | some _ => none
              | none =>
                  match render_props (path ++ [key]) props [] with
                  | some (inner', tr) =>
                      some (setKey data key (.yobj inner'), tr)
                  | none => none
          | none => some (data, [])
      | _ => some (data, [])

/-- The `for subkey, subschema in schema["properties"].items()` loop (also
the top-level loop in `main`), threading the mapping and collecting the
rendered field paths in render order: each property's own path, then the
paths of the sub-fields its `render_field` call descended into. -/
def render_props (path : List String) (props : List (String × JSchema))
    (data : List (String × Yaml)) :
    Option (List (String × Yaml) × List (List String)) :=
  match props with
  | [] => some (data, [])
  | (k, sub) :: rest =>
      match render_field path k sub data with
      | some (d, tr) =>
          match render_props path rest d with
          | some (d', tr') => some (d', ((path ++ [k]) :: tr) ++ tr')
          | none => none
      | none => none

end

/-- The top-level rendering loop of the web editor's `main`. -/
def render_all (schema : JSchema) (data : List (String × Yaml)) :
    Option (List (String × Yaml) × List (List String)) :=
  render_props [] (schema.properties.getD []) data

/-- Schema-guided witness that the instance is (or contains, along
`properties`-declared keys) an object missing one of its schema's required
fields.  This is the premise of claim C1 made precise. -/
inductive MissingRequired : JSchema → Yaml → Prop where
  | here (schema : JSchema) (m : List (String × Yaml)) (k : String) :
      k ∈ schema.required → hasKey m k = false →
      MissingRequired schema (.yobj m)
  | prop (schema : JSchema) (props : List (String × JSchema))
      (m : List (String × Yaml)) (k₀ : String) (sub : JSchema) (v₁ : Yaml) :
      schema.properties = some props → (k₀, sub) ∈ props →
      getKey m k₀ = some v₁ → MissingRequired sub v₁ →
      MissingRequired schema (.yobj m)

/-! ## Helper lemmas -/

theorem sizeY_pos (y : Yaml) : 1 ≤ sizeY y := by
  cases y <;> simp [sizeY]

theorem sizeA_pos (l : List Yaml) : 1 ≤ sizeA l := by
  cases l <;> simp [sizeA]

theorem sizeO_pos (m : List (String × Yaml)) : 1 ≤ sizeO m := by
  cases m with
  | nil => simp [sizeO]
  | cons p ms => obtain ⟨k, y⟩ := p; simp [sizeO]

theorem dumpY_length_pos (y : Yaml) : 1 ≤ (dumpY y).length := by
  cases y <;> simp [dumpY]

theorem dumpArr_length_pos (l : List Yaml) : 1 ≤ (dumpArr l).length := by
  cases l with
  | nil => simp [dumpArr]
  | cons y ys => have := dumpY_length_pos y; simp [dumpArr]; omega

theorem dumpObj_length_pos (m : List (String × Yaml)) :
    1 ≤ (dumpObj m).length := by
  cases m with
  | nil => simp [dumpObj]
  | cons p ms => obtain ⟨k, y⟩ := p; simp [dumpObj]

theorem dumpY_ne_nil (y : Yaml) : ¬ dumpY y = [] := by
  cases y <;> simp [dumpY]

theorem dumpY_head_ne_arrClose (y : Yaml) :
    ¬ (dumpY y).head? = some Tok.tArrClose := by
  cases y <;> simp [dumpY]

theorem dumpY_head_ne_objClose (y : Yaml) :
    ¬ (dumpY y).head? = some Tok.tObjClose := by
  cases y <;> simp [dumpY]

/-- The parser consumes exactly what the emitter produced, with any
suffix untouched, given enough fuel (proved simultaneously for values,
array tails and mapping tails by induction on the fuel). -/
theorem parse_dump_fuel (fuel : Nat) :
    (∀ y rest, sizeY y ≤ fuel → parseY fuel (dumpY y ++ rest) = some (y, rest)) ∧
    (∀ l rest, sizeA l ≤ fuel → parseArr fuel (dumpArr l ++ rest) = some (l, rest)) ∧
    (∀ m rest, sizeO m ≤ fuel → parseObj fuel (dumpObj m ++ rest) = some (m, rest)) := by
  induction fuel with
  | zero =>
      refine ⟨fun y rest h => absurd h ?_, fun l rest h => absurd h ?_,
        fun m rest h => absurd h ?_⟩
      · exact Nat.not_le.mpr (sizeY_pos y)
      · exact Nat.not_le.mpr (sizeA_pos l)
      · exact Nat.not_le.mpr (sizeO_pos m)
  | succ f ih =>
      obtain ⟨ihY, ihA, ihO⟩ := ih
      refine ⟨?_, ?_, ?_⟩
      · intro y rest hs
        cases y with
        | ynull => simp [dumpY, parseY]
        | ybool b => simp [dumpY, parseY]
        | yint n => simp [dumpY, parseY]
        | ynum q => simp [dumpY, parseY]
        | ystr s => simp [dumpY, parseY]
        | yarr l =>
            have hl : sizeA l ≤ f := by simp [sizeY] at hs; omega
            simp [dumpY, parseY, ihA l rest hl]
        | yobj m =>
            have hm : sizeO m ≤ f := by simp [sizeY] at hs; omega
            simp [dumpY, parseY, ihO m rest hm]
      · intro l rest hs
        cases l with
        | nil => simp [dumpArr, parseArr]
        | cons y ys =>
            have hmax : max (sizeY y) (sizeA ys) ≤ f := by
              simp [sizeA] at hs; omega
            have hy : sizeY y ≤ f := le_trans (le_max_left _ _) hmax
            have hys : sizeA ys ≤ f := le_trans (le_max_right _ _) hmax
            rw [dumpArr, List.append_assoc]
            simp [parseArr, dumpY_head_ne_arrClose, dumpY_ne_nil,
              ihY y (dumpArr ys ++ rest) hy, ihA ys rest hys]
      · intro m rest hs
        cases m with
        | nil => simp [dumpObj, parseObj]
        | cons p ms =>
            obtain ⟨k, y⟩ := p
            have hmax : max (sizeY y) (sizeO ms) ≤ f := by
              simp [sizeO] at hs; omega
            have hy : sizeY y ≤ f := le_trans (le_max_left _ _) hmax
            have hms : sizeO ms ≤ f := le_trans (le_max_right _ _) hmax
            have hstep : dumpObj ((k, y) :: ms) ++ rest
                = Tok.tKey k :: (dumpY y ++ (dumpObj ms ++ rest)) := by
              simp [dumpObj]
            rw [hstep]
            simp [parseObj, ihY y (dumpObj ms ++ rest) hy, ihO ms rest hms]

/-- Fuel bound: the token count of a dumped value covers the fuel its
parse needs (again by induction on an ambient fuel, which sidesteps the
nested induction on `Yaml`). -/
theorem size_le_dump_length_fuel (fuel : Nat) :
    (∀ y, sizeY y ≤ fuel → sizeY y ≤ (dumpY y).length) ∧
    (∀ l, sizeA l ≤ fuel → sizeA l ≤ (dumpArr l).length) ∧
    (∀ m, sizeO m ≤ fuel → sizeO m ≤ (dumpObj m).length) := by
  induction fuel with
  | zero =>
      refine ⟨fun y h => absurd h ?_, fun l h => absurd h ?_,
        fun m h => absurd h ?_⟩
      · exact Nat.not_le.mpr (sizeY_pos y)
      · exact Nat.not_le.mpr (sizeA_pos l)
      · exact Nat.not_le.mpr (sizeO_pos m)
  | succ f ih =>
      obtain ⟨ihY, ihA, ihO⟩ := ih
      refine ⟨?_, ?_, ?_⟩
      · intro y hs
        cases y with
        | yarr l =>
            have hl : sizeA l ≤ f := by simp [sizeY] at hs; omega
            have := ihA l hl
            simp [sizeY, dumpY]; omega
        | yobj m =>
            have hm : sizeO m ≤ f := by simp [sizeY] at hs; omega
            have := ihO m hm
            simp [sizeY, dumpY]; omega
        | _ => simp [sizeY, dumpY]
      · intro l hs
        cases l with
        | nil => simp [sizeA, dumpArr]
        | cons y ys =>
            have hmax : max (sizeY y) (sizeA ys) ≤ f := by
              simp [sizeA] at hs; omega
            have hy := ihY y (le_trans (le_max_left _ _) hmax)
            have hys := ihA ys (le_trans (le_max_right _ _) hmax)
            have h1 := dumpY_length_pos y
            have h2 := dumpArr_length_pos ys
            have hm : max (sizeY y) (sizeA ys) ≤
                (dumpY y).length + (dumpArr ys).length - 1 :=
              max_le (by omega) (by omega)
            simp [sizeA, dumpArr]; omega
      · intro m hs
        cases m with
        | nil => simp [sizeO, dumpObj]
        | cons p ms =>
            obtain ⟨k, y⟩ := p
            have hmax : max (sizeY y) (sizeO ms) ≤ f := by
              simp [sizeO] at hs; omega
            have hy := ihY y (le_trans (le_max_left _ _) hmax)
            have hms := ihO ms (le_trans (le_max_right _ _) hmax)
            have h1 := dumpY_length_pos y
            have h2 := dumpObj_length_pos ms
            have hm : max (sizeY y) (sizeO ms) ≤
                (dumpY y).length + (dumpObj ms).length - 1 :=
              max_le (by omega) (by omega)
            simp [sizeO, dumpObj]; omega

theorem sizeY_le_dump_length (y : Yaml) : sizeY y ≤ (dumpY y).length :=
  (size_le_dump_length_fuel (sizeY y)).1 y le_rfl

theorem parseY_dumpY (y : Yaml) :
    parseY (dumpY y).length (dumpY y) = some (y, []) := by
  have := (parse_dump_fuel (dumpY y).length).1 y [] (sizeY_le_dump_length y)
  simpa using this

theorem fsGet_fsSet (fs : FS) (path : String) (toks : List Tok) :
    fsGet (fsSet fs path toks) path = some toks := by
  induction fs with
  | nil => simp [fsSet, fsGet]
  | cons p rest ih =>
      obtain ⟨p₁, t₁⟩ := p
      by_cases h : p₁ = path
      · simp [fsSet, h, fsGet]
      · simpa [fsSet, h, fsGet] using ih

/-- Saving a mapping and loading it back through the serialiser gives the
mapping again (shared between claims C5 and C6). -/
theorem load_save_eq (fs : FS) (path : String) (data : Yaml) :
    load_contract (save_contract fs path data) path = some data := by
  simp [load_contract, save_contract, fsGet_fsSet, parseY_dumpY]

/-! ## Claim theorems -/

/-- C6: saving a mapping with `save_contract` and reloading the written
file with `load_contract` yields the same mapping (here: exactly, hence in
particular up to key ordering). -/
theorem C6_save_load_roundtrip (fs : FS) (path : String) (data : Yaml) :
    load_contract (save_contract fs path data) path = some data :=
  load_save_eq fs path data

/-- C5: the CLI editor's `main` writes the edited mapping back exactly when
schema validation of it succeeds; on validation failure the disk state is
left unchanged. -/
theorem C5_save_iff_valid (fs : FS) (path : String) (updated : Yaml)
    (schema : JSchema) :
    (validate_contract updated schema = true →
      load_contract (main_save fs path updated schema) path = some updated) ∧
    (validate_contract updated schema = false →
      main_save fs path updated schema = fs) := by
  constructor
  · intro h
    rw [main_save, if_pos (by simp [h])]
    exact load_save_eq fs path updated
  · intro h
    rw [main_save, if_neg (by simp [h])]

/-- C4: for an existing contracts directory in which the two globs match no
file, `validate_odcs_contracts` returns `True`. -/
theorem C4_empty_dir_vacuous (files : List CFile) (schema? : Option JSchema)
    (h : yamlFilesOf files = []) :
    validate_odcs_contracts (some files) schema? = some true := by
  simp [validate_odcs_contracts, h]

/-- The per-file loop returns `some true` exactly when the flag came in
`true` and every file's check completes with `some true`. -/
theorem walkFiles_eq_some_true (schema? : Option JSchema) (l : List CFile)
    (acc : Bool) :
    walkFiles schema? l acc = some true ↔
      (acc = true ∧ ∀ f ∈ l, contract_file_valid schema? f.content = some true) := by
  induction l generalizing acc with
  | nil => simp [walkFiles]
  | cons f rest ih =>
      cases hc : contract_file_valid schema? f.content with
      | none => simp [walkFiles, hc]
      | some b =>
          simp only [walkFiles, hc, ih, List.forall_mem_cons]
          cases acc <;> cases b <;> simp [hc]

/-- The per-file loop aborts (uncaught `TypeError`) exactly when some
enumerated file's check raises, regardless of the flag. -/
theorem walkFiles_eq_none (schema? : Option JSchema) (l : List CFile)
    (acc : Bool) :
    walkFiles schema? l acc = none ↔
      ∃ f ∈ l, contract_file_valid schema? f.content = none := by
  induction l generalizing acc with
  | nil => simp [walkFiles]
  | cons f rest ih =>
      cases hc : contract_file_valid schema? f.content with
      | none => simp [walkFiles, hc]
      | some b => simp [walkFiles, hc, ih]

/-- C3 counterexample: a directory whose first enumerated file holds the
scalar `42` (loaded as an `int`) and whose second file is a perfectly
valid contract, with no ODCS schema loaded.  The first file's structure
check raises an uncaught `TypeError` (`'...' not in 42`), the walk aborts
and never returns a boolean, and the later valid file — whose own check
would return success — is never reached: one file's failure does stop the
others, and the walker does not return the conjunction. -/
theorem C3_independence_counterexample :
    validate_odcs_contracts
        (some [CFile.mk "crash.yaml" (some (.yint 42)),
               CFile.mk "good.yaml" (some (.yobj
                 [("dataContractSpecification", .ystr "1.1.0"),
                  ("id", .ystr "kg"), ("info", .yobj [])]))]) none
      = none ∧
    contract_file_valid none (some (.yint 42)) = none ∧
    contract_file_valid none (some (.yobj
        [("dataContractSpecification", .ystr "1.1.0"),
         ("id", .ystr "kg"), ("info", .yobj [])]))
      = some true := by
  exact ⟨rfl, rfl, rfl⟩

/-- C3 (amended): for an existing contracts directory, the walker returns
`True` exactly when every enumerated YAML file's check completes
successfully; but when any enumerated file's structure check raises (a
non-mapping scalar document reached in no-schema mode, or after passing
schema validation), the walk aborts with an uncaught `TypeError` and
returns nothing, so files after it are never checked. -/
theorem C3_walker_conjunction (files : List CFile) (schema? : Option JSchema) :
    (validate_odcs_contracts (some files) schema? = some true ↔
      ∀ f ∈ yamlFilesOf files, contract_file_valid schema? f.content = some true) ∧
    (validate_odcs_contracts (some files) schema? = none ↔
      ∃ f ∈ yamlFilesOf files, contract_file_valid schema? f.content = none) := by
  unfold validate_odcs_contracts
  by_cases h : yamlFilesOf files = []
  · simp [h]
  · have h' : (yamlFilesOf files).isEmpty = false := by
      simpa [List.isEmpty_iff] using h
    simp [h', walkFiles_eq_some_true, walkFiles_eq_none]

/-- On a mapping, the section loop reports the first missing section. -/
theorem sectionsCheck_obj_false (m : List (String × Yaml))
    (sections : List String)
    (h : ∃ s ∈ sections, hasKey m s = false) :
    sectionsCheck (.yobj m) sections = some false := by
  induction sections with
  | nil => simp at h
  | cons s rest ih =>
      by_cases hs : hasKey m s
      · obtain ⟨t, ht, hf⟩ := h
        rcases List.mem_cons.mp ht with rfl | ht'
        · rw [hs] at hf; cases hf
        · simp [sectionsCheck, pyIn, hs, ih ⟨t, ht', hf⟩]
      · simp [sectionsCheck, pyIn, hs]

/-- C8: a contract mapping missing one of the three fixed sections fails
`validate_odcs_structure`, and the per-file check counts the file as
invalid whatever the schema situation is (no schema loaded, or schema
validation succeeded). -/
theorem C8_structure_check_independent (m : List (String × Yaml)) (k : String)
    (hk : k ∈ (["dataContractSpecification", "id", "info"] : List String))
    (hmiss : hasKey m k = false) :
    validate_odcs_structure (.yobj m) = some false ∧
      ∀ schema? : Option JSchema,
        contract_file_valid schema? (some (.yobj m)) = some false := by
  have hs : validate_odcs_structure (.yobj m) = some false := by
    rw [validate_odcs_structure, sectionsCheck_obj_false m _ ⟨k, hk, hmiss⟩]
  refine ⟨hs, fun schema? => ?_⟩
  cases schema? with
  | none => simp [contract_file_valid, hs]
  | some sch =>
      unfold contract_file_valid
      cases h : jvalidate sch (.yobj m) <;> simp [h, hs]

/-- C9: the naming checker only examines `*.yaml` files in the contracts
directory, so a `*.yml` contract contributes no naming issue, although the
directory walker does enumerate it. -/
theorem C9_yml_not_flagged (names : List String) (n : String)
    (h1 : strEndsWith n ".yml" = true) (h2 : strEndsWith n ".yaml" = false) :
    contractNamingIssues (n :: names) = contractNamingIssues names ∧
    ∀ (content : Option Yaml) (files : List CFile),
      CFile.mk n content ∈ files →
        CFile.mk n content ∈ yamlFilesOf files := by
  constructor
  · simp [contractNamingIssues, h2]
  · intro content files hf
    unfold yamlFilesOf
    refine List.mem_append_right _ ?_
    exact List.mem_filter.mpr ⟨hf, by simpa using h1⟩

/-- If the property loop reports no error, every declared property that is
present in the instance validated against its sub-schema. -/
theorem jvalidateProps_none (props : List (String × JSchema))
    (m : List (String × Yaml)) (h : jvalidateProps props m = none) :
    ∀ k sub, (k, sub) ∈ props → ∀ v, getKey m k = some v →
      jvalidate sub v = none := by
  induction props with
  | nil => intro k sub hmem; simp at hmem
  | cons p rest ih =>
      obtain ⟨k₀, sub₀⟩ := p
      intro k sub hmem v hv
      cases hv0 : getKey m k₀ with
      | none =>
          simp only [jvalidateProps, hv0] at h
          rcases List.mem_cons.mp hmem with heq | hmem'
          · cases heq
            exact absurd hv (by simp [hv0])
          · exact ih h k sub hmem' v hv
      | some v₀ =>
          cases hj : jvalidate sub₀ v₀ with
          | some e =>
              simp [jvalidateProps, hv0, hj] at h
          | none =>
              simp only [jvalidateProps, hv0, hj] at h
              rcases List.mem_cons.mp hmem with heq | hmem'
              · cases heq
                rw [hv0] at hv
                cases Option.some.inj hv
                exact hj
              · exact ih h k sub hmem' v hv

/-- Soundness of the validator for missing required fields: whenever the
instance misses a required field along `properties`-declared keys, the
validator reports some error. -/
theorem missingRequired_jvalidate_ne (schema : JSchema) (v : Yaml)
    (hm : MissingRequired schema v) : ¬ jvalidate schema v = none := by
  induction hm with
  | here schema m k hk hmiss =>
      intro hnone
      cases schema with
      | mk t? req props? items? enum? d1 d2 =>
          simp only [JSchema.required] at hk
          rw [jvalidate.eq_def] at hnone
          cases ht : typeCheck t? (Yaml.yobj m) with
          | some e => simp [ht, chkSeq] at hnone
          | none =>
              cases he : enumCheck enum? (Yaml.yobj m) with
              | some e => simp [ht, he, chkSeq] at hnone
              | none =>
                  cases hf : req.find? (fun k => !hasKey m k) with
                  | some k' =>
                      simp [ht, he, hf, chkSeq, requiredCheck] at hnone
                  | none =>
                      have := List.find?_eq_none.mp hf k hk
                      simp [hmiss] at this
  | prop schema props m k₀ sub v₁ hprops hmem hget hsub ih =>
      intro hnone
      cases schema with
      | mk t? req props? items? enum? d1 d2 =>
          simp only [JSchema.properties] at hprops
          subst hprops
          rw [jvalidate.eq_def] at hnone
          cases ht : typeCheck t? (Yaml.yobj m) with
          | some e => simp [ht, chkSeq] at hnone
          | none =>
              cases he : enumCheck enum? (Yaml.yobj m) with
              | some e => simp [ht, he, chkSeq] at hnone
              | none =>
                  cases hf : req.find? (fun k => !hasKey m k) with
                  | some k' =>
                      simp [ht, he, hf, chkSeq, requiredCheck] at hnone
                  | none =>
                      simp only [ht, he, hf, chkSeq, requiredCheck] at hnone
                      exact ih (jvalidateProps_none props m hnone k₀ sub hmem
                        v₁ hget)

/-- C1 counterexample: for the instance `{}` against a schema requiring
`id`, the validator fails, but the reported path is the (empty) path of
the object missing the field — it does not include the key `id`, which is
carried by the message instead. -/
theorem C1_required_path_counterexample :
    validate_odps_file (some (.yobj []))
        (JSchema.mk none ["id"] none none none none none)
      = (false, some ⟨requiredMessage "id", []⟩) ∧
    hasKey [] "id" = false ∧
    PathItem.key "id" ∉ ([] : List PathItem) := by
  refine ⟨?_, by decide, by simp⟩
  simp only [validate_odps_file]
  rw [jvalidate.eq_def]
  simp [typeCheck, enumCheck, chkSeq, requiredCheck, hasKey, objKeys,
    List.find?]

/-- C1 (amended): an instance missing a schema-required field always fails
validation; at top level the reported error is the required-field error
whose path is the empty path of the containing object and whose message
names a missing required field. -/
theorem C1_missing_required_reported (t? : Option String) (req : List String)
    (props? : Option (List (String × JSchema))) (items? : Option JSchema)
    (enum? : Option (List Yaml)) (d1 : Option Yaml) (d2 : Option String)
    (m : List (String × Yaml)) (k : String)
    (htype : t? = none ∨ t? = some "object") (henum : enum? = none)
    (hk : k ∈ req) (hmiss : hasKey m k = false) :
    (∀ schema v, MissingRequired schema v →
      (validate_odps_file (some v) schema).1 = false) ∧
    ∃ k', k' ∈ req ∧ hasKey m k' = false ∧
      (validate_odps_file (some (.yobj m))
          (.mk t? req props? items? enum? d1 d2)).2
        = some ⟨requiredMessage k', []⟩ := by
  constructor
  · intro schema v hm
    have hne := missingRequired_jvalidate_ne schema v hm
    unfold validate_odps_file
    cases hj : jvalidate schema v with
    | none => exact absurd hj hne
    | some e => simp [hj]
  · have ht : typeCheck t? (Yaml.yobj m) = none := by
      rcases htype with h | h <;> simp [h, typeCheck, typeMatches]
    have hsome : (req.find? (fun k => !hasKey m k)).isSome := by
      rw [List.find?_isSome]
      exact ⟨k, hk, by simp [hmiss]⟩
    obtain ⟨k', hfind⟩ := Option.isSome_iff_exists.mp hsome
    have hk' : k' ∈ req := List.mem_of_find?_eq_some hfind
    have hmiss' : hasKey m k' = false := by
      have := List.find?_some hfind
      simpa using this
    refine ⟨k', hk', hmiss', ?_⟩
    simp only [validate_odps_file]
    rw [jvalidate.eq_def]
    simp [ht, henum, enumCheck, chkSeq, requiredCheck, hfind]

/-- C1 witness: the amended theorem applied to the `{}` instance and a
schema requiring `id`. -/
theorem C1_missing_required_reported_witness :
    (validate_odps_file (some (.yobj []))
        (JSchema.mk none ["id"] none none none none none)).1 = false ∧
    (validate_odps_file (some (.yobj []))
        (JSchema.mk none ["id"] none none none none none)).2
      = some ⟨requiredMessage "id", []⟩ := by
  constructor
  · exact (C1_missing_required_reported none ["id"] none none none none none
      [] "id" (Or.inl rfl) rfl (by decide) (by decide)).1 _ _
      (MissingRequired.here (JSchema.mk none ["id"] none none none none none)
        [] "id" (by simp [JSchema.required]) (by decide))
  · simp only [validate_odps_file]
    rw [jvalidate.eq_def]
    simp [typeCheck, enumCheck, chkSeq, requiredCheck, hasKey, objKeys,
      List.find?]

/-- C4 witness: a directory holding only `README.md`. -/
theorem C4_empty_dir_vacuous_witness :
    yamlFilesOf [CFile.mk "README.md" none] = [] ∧
    validate_odcs_contracts (some [CFile.mk "README.md" none]) none
      = some true := by
  have h : yamlFilesOf [CFile.mk "README.md" none] = [] := by
    simp [yamlFilesOf]
    decide
  exact ⟨h, C4_empty_dir_vacuous _ none h⟩

/-- C5 witness: a valid mapping is written and reloads as itself; an
invalid one (a string where the schema wants an object) leaves the empty
disk state empty. -/
theorem C5_save_iff_valid_witness :
    load_contract
        (main_save [] "contracts/c.yaml" (.yobj [("id", .ystr "x")])
          JSchema.empty)
        "contracts/c.yaml"
      = some (.yobj [("id", .ystr "x")]) ∧
    main_save [] "contracts/c.yaml" (.ystr "nope")
        (JSchema.mk (some "object") [] none none none none none)
      = [] := by
  constructor
  · refine (C5_save_iff_valid [] "contracts/c.yaml" _ JSchema.empty).1 ?_
    rw [validate_contract, jvalidate.eq_def]
    simp [JSchema.empty, typeCheck, enumCheck, chkSeq, requiredCheck]
  · refine (C5_save_iff_valid [] "contracts/c.yaml" _ _).2 ?_
    rw [validate_contract, jvalidate.eq_def]
    simp [typeCheck, typeMatches, chkSeq]

/-- C8 witness: a contract missing the `info` section fails the structure
check and the per-file check, with no schema loaded. -/
theorem C8_structure_check_independent_witness :
    validate_odcs_structure
        (.yobj [("dataContractSpecification", Yaml.ystr "1.1.0"),
                ("id", Yaml.ystr "kg-estg")]) = some false ∧
    contract_file_valid none
        (some (.yobj [("dataContractSpecification", Yaml.ystr "1.1.0"),
                      ("id", Yaml.ystr "kg-estg")])) = some false := by
  have h := C8_structure_check_independent
    [("dataContractSpecification", Yaml.ystr "1.1.0"),
     ("id", Yaml.ystr "kg-estg")] "info" (by decide) (by decide)
  exact ⟨h.1, h.2 none⟩

/-- C9 witness: `contract.yml` produces no naming issue yet is enumerated
by the walker. -/
theorem C9_yml_not_flagged_witness :
    contractNamingIssues ["contract.yml"] = contractNamingIssues [] ∧
    CFile.mk "contract.yml" none
      ∈ yamlFilesOf [CFile.mk "contract.yml" none] := by
  have h := C9_yml_not_flagged [] "contract.yml" (by decide) (by decide)
  exact ⟨h.1, h.2 none [CFile.mk "contract.yml" none] (by simp)⟩

/-- C2 counterexample: a repository state whose only problem is a contract
filename violating the naming convention (`contract.yaml`, no version
token): the ODPS file validates, every contract validates, yet the run's
outcome is failure (exit code 1), so naming violations are fatal. -/
theorem C2_naming_nonfatal_counterexample :
    validate_odps_file (some (.yobj [])) JSchema.empty = (true, none) ∧
    validate_odcs_contracts
        (some [CFile.mk "contract.yaml"
          (some (.yobj [("dataContractSpecification", .ystr "1.1.0"),
                        ("id", .ystr "kg"), ("info", .yobj [])]))]) none
      = some true ∧
    (check_file_naming_conventions (some ["contract.yaml"]) []).1 = false ∧
    mainRun
        (RepoState.mk (some JSchema.empty) none (some (some (.yobj [])))
          (some [CFile.mk "contract.yaml"
            (some (.yobj [("dataContractSpecification", .ystr "1.1.0"),
                          ("id", .ystr "kg"), ("info", .yobj [])]))])
          [])
      = .finished false := by
  have hodps : validate_odps_file (some (.yobj [])) JSchema.empty
      = (true, none) := by
    simp only [validate_odps_file]
    rw [jvalidate.eq_def]
    simp [JSchema.empty, typeCheck, enumCheck, chkSeq, requiredCheck]
  have hcontracts : validate_odcs_contracts
      (some [CFile.mk "contract.yaml"
        (some (.yobj [("dataContractSpecification", .ystr "1.1.0"),
                      ("id", .ystr "kg"), ("info", .yobj [])]))]) none
      = some true := rfl
  have hnaming : (check_file_naming_conventions (some ["contract.yaml"]) []).1
      = false := by
    simp [check_file_naming_conventions, contractNamingIssues,
      rootNamingIssues]
    decide
  refine ⟨hodps, hcontracts, hnaming, ?_⟩
  rw [mainRun]
  simp [hodps, hcontracts, hnaming, RepoState.contractNames]

/-- C2 (amended): naming-convention violations are reported (with a
warning prefix) but they are fatal: whenever the naming check fails and
the ODPS schema loaded, `main` cannot end in success — the run finishes
with the failure verdict (or was already aborted by the contracts walk),
and the process exit code is 1 either way. -/
theorem C2_naming_violation_fails_run (st : RepoState) (schema : JSchema)
    (hs : st.odpsSchema = some schema)
    (hn : (check_file_naming_conventions st.contractNames st.rootNames).1
      = false) :
    (mainRun st = .crashed ∨ mainRun st = .finished false) ∧
    mainExitCode (mainRun st) = 1 := by
  cases hvc : validate_odcs_contracts st.contractsDir st.odcsSchema with
  | none =>
      have h : mainRun st = .crashed := by rw [mainRun, hs]; simp [hvc]
      exact ⟨Or.inl h, by rw [h]; rfl⟩
  | some c =>
      have h : mainRun st = .finished false := by
        rw [mainRun, hs]
        simp [hvc, hn]
      exact ⟨Or.inr h, by rw [h]; rfl⟩

/-- C2 witness: the amended theorem applied to the counterexample state. -/
theorem C2_naming_violation_fails_run_witness :
    (mainRun
        (RepoState.mk (some JSchema.empty) none (some (some (.yobj [])))
          (some [CFile.mk "contract.yaml"
            (some (.yobj [("dataContractSpecification", .ystr "1.1.0"),
                          ("id", .ystr "kg"), ("info", .yobj [])]))])
          [])
      = .crashed ∨
     mainRun
        (RepoState.mk (some JSchema.empty) none (some (some (.yobj [])))
          (some [CFile.mk "contract.yaml"
            (some (.yobj [("dataContractSpecification", .ystr "1.1.0"),
                          ("id", .ystr "kg"), ("info", .yobj [])]))])
          [])
      = .finished false) ∧
    mainExitCode
        (mainRun
          (RepoState.mk (some JSchema.empty) none (some (some (.yobj [])))
            (some [CFile.mk "contract.yaml"
              (some (.yobj [("dataContractSpecification", .ystr "1.1.0"),
                            ("id", .ystr "kg"), ("info", .yobj [])]))])
            []))
      = 1 := by
  refine C2_naming_violation_fails_run _ JSchema.empty rfl ?_
  simp [check_file_naming_conventions, contractNamingIssues,
    rootNamingIssues, RepoState.contractNames]
  decide

/-- The property loop renders every property in the list: each property
key's path appears in the collected trace. -/
theorem render_props_trace (path : List String)
    (props : List (String × JSchema)) (data d : List (String × Yaml))
    (tr : List (List String))
    (h : render_props path props data = some (d, tr)) :
    ∀ k' sub, (k', sub) ∈ props → (path ++ [k']) ∈ tr := by
  induction props generalizing data d tr with
  | nil => intro k' sub hmem; simp at hmem
  | cons q rest ih =>
      obtain ⟨k₀, sub₀⟩ := q
      intro k' sub hmem
      cases hrf : render_field path k₀ sub₀ data with
      | none => simp [render_props, hrf] at h
      | some pr =>
          obtain ⟨d₀, tr₀⟩ := pr
          cases hrp : render_props path rest d₀ with
          | none => simp [render_props, hrf, hrp] at h
          | some pr' =>
              obtain ⟨d₁, tr₁⟩ := pr'
              simp only [render_props, hrf, hrp] at h
              cases h
              rcases List.mem_cons.mp hmem with heq | hmem'
              · cases heq
                exact List.mem_append_left _ (List.mem_cons_self _ _)
              · exact List.mem_append_right _ (ih d₀ _ _ hrp k' sub hmem')

/-- C7 counterexample: a doubly nested object schema
(`a : object { b : object { c : string } }`).  Rendering from empty data
descends through *both* object levels: the inner string field `c` is
rendered (its path `["a", "b", "c"]` appears in the trace) and receives a
value, refuting "an object nested inside an object is not descended into
further". -/
theorem C7_one_level_counterexample :
    render_all
        (JSchema.mk none []
          (some [("a", JSchema.mk (some "object") [] (some [("b",
              JSchema.mk (some "object") [] (some [("c",
                  JSchema.mk (some "string") [] none none none none none)])
                none none none none)])
            none none none none)])
          none none none none)
        []
      = some ([("a", .yobj [("b", .yobj [("c", .ystr "")])])],
          [["a"], ["a", "b"], ["a", "b", "c"]]) ∧
    ["a", "b", "c"] ∈ [["a"], ["a", "b"], ["a", "b", "c"]] := by
  exact ⟨rfl, by simp⟩

/-- C7 (amended): `render_field` recurses into nested object schemas at
every depth, not just one level: whenever an object-typed property with
declared sub-properties is rendered — at any path — each of its
sub-properties is rendered too. -/
theorem C7_render_descends_all_levels (path : List String) (key : String)
    (req : List String) (props : List (String × JSchema))
    (items? : Option JSchema) (enum? : Option (List Yaml))
    (default? : Option Yaml) (dsc : Option String)
    (data d : List (String × Yaml)) (tr : List (List String))
    (h : render_field path key
        (.mk (some "object") req (some props) items? enum? default? dsc) data
      = some (d, tr)) :
    ∀ k' sub, (k', sub) ∈ props → (path ++ [key, k']) ∈ tr := by
  intro k' sub hmem
  cases hg : getKey data key with
  | none =>
      cases hrp : render_props (path ++ [key]) props [] with
      | none => simp [render_field, hg, hrp] at h
      | some pr =>
          obtain ⟨inner', trP⟩ := pr
          simp only [render_field, hg, hrp] at h
          cases h
          have hmemtr := render_props_trace _ props _ _ _ hrp k' sub hmem
          simpa [List.append_assoc] using hmemtr
  | some v =>
      cases v with
      | yobj inner =>
          cases hrp : render_props (path ++ [key]) props inner with
          | none => simp [render_field, hg, hrp] at h
          | some pr =>
              obtain ⟨inner', trP⟩ := pr
              simp only [render_field, hg, hrp] at h
              cases h
              have hmemtr := render_props_trace _ props _ _ _ hrp k' sub hmem
              simpa [List.append_assoc] using hmemtr
      | ynull => simp [render_field, hg] at h
      | ybool b => simp [render_field, hg] at h
      | yint n => simp [render_field, hg] at h
      | ynum q => simp [render_field, hg] at h
      | ystr s => simp [render_field, hg] at h
      | yarr l => simp [render_field, hg] at h

/-- C7 witness: the amended theorem applied one level down (at path
`["a"]`), showing the depth-2 field `c` is rendered. -/
theorem C7_render_descends_all_levels_witness :
    render_field ["a"] "b"
        (JSchema.mk (some "object") [] (some [("c",
            JSchema.mk (some "string") [] none none none none none)])
          none none none none)
        []
      = some ([("b", .yobj [("c", .ystr "")])], [["a", "b", "c"]]) ∧
    ["a", "b", "c"] ∈ [["a", "b", "c"]] := by
  have heval : render_field ["a"] "b"
      (JSchema.mk (some "object") [] (some [("c",
          JSchema.mk (some "string") [] none none none none none)])
        none none none none)
      []
    = some ([("b", .yobj [("c", .ystr "")])], [["a", "b", "c"]]) := rfl
  refine ⟨heval, ?_⟩
  have := C7_render_descends_all_levels ["a"] "b" [] _ none none none none
    [] _ _ heval "c"
    (JSchema.mk (some "string") [] none none none none none)
    (List.mem_singleton.mpr rfl)
  exact this

/-- Writing one key leaves every other key's binding unchanged. -/
theorem getKey_setKey_ne (m : List (String × Yaml)) (k k' : String)
    (v : Yaml) (h : ¬ k' = k) :
    getKey (setKey m k v) k' = getKey m k' := by
  have h' : ¬ k = k' := fun e => h e.symm
  induction m with
  | nil => simp [setKey, getKey, List.find?, h']
  | cons p rest ih =>
      obtain ⟨k₀, v₀⟩ := p
      by_cases h0 : k₀ = k
      · subst h0
        have hne : ¬ k₀ = k' := fun e => h e.symm
        simp [setKey, getKey, List.find?, hne]
      · by_cases h1 : k₀ = k'
        · subst h1
          simp [setKey, h0, getKey, List.find?]
        · simpa [setKey, h0, getKey, List.find?, h1] using ih

/-- A prompt answered with cancel or the empty string changes nothing. -/
theorem editStep_identity (data : List (String × Yaml)) (key : String)
    (p : JSchema) (r : Option String) (h : r = none ∨ r = some "") :
    editStep data key p r = some data := by
  rcases h with rfl | rfl <;> cases hp : p.stype <;> simp [editStep, hp]

/-- One prompt step never touches another key's binding. -/
theorem editStep_other (data d : List (String × Yaml)) (key k' : String)
    (p : JSchema) (r : Option String) (hne : ¬ k' = key)
    (h : editStep data key p r = some d) :
    getKey d k' = getKey data k' := by
  unfold editStep at h
  cases hp : p.stype with
  | none =>
      simp only [hp] at h
      cases h
      rfl
  | some t =>
      simp only [hp] at h
      cases r with
      | none => cases h; rfl
      | some s =>
          by_cases hs : s = ""
          · simp only [hs, if_pos rfl] at h
            cases h
            rfl
          · simp only [if_neg hs] at h
            cases ha : scalarAssign t s with
            | none => simp [ha] at h
            | some w =>
                cases w with
                | none => simp only [ha] at h; cases h; rfl
                | some v =>
                    simp only [ha] at h
                    cases h
                    exact getKey_setKey_ne data key k' v hne

/-- The editing loop leaves keys outside the schema's property list
unchanged. -/
theorem editProps_frame (props : List (String × JSchema))
    (data out : List (String × Yaml)) (resp : String → Option String)
    (k' : String) (h : editProps data props resp = some out)
    (hnot : k' ∉ props.map Prod.fst) :
    getKey out k' = getKey data k' := by
  induction props generalizing data with
  | nil =>
      simp only [editProps] at h
      cases h
      rfl
  | cons q rest ih =>
      obtain ⟨k₀, p₀⟩ := q
      have hne : ¬ k' = k₀ := by
        intro e
        exact hnot (by simp [e])
      have hnot' : k' ∉ rest.map Prod.fst := by
        intro hmem
        exact hnot (by simp [hmem])
      simp only [editProps] at h
      cases hstep : editStep data k₀ p₀ (resp k₀) with
      | none => simp [hstep] at h
      | some dnext =>
          simp only [hstep] at h
          rw [ih dnext h hnot']
          exact editStep_other data dnext k₀ k' p₀ (resp k₀) hne hstep

/-- A scalar property whose prompt is answered empty keeps its binding
(assuming the schema's property keys are distinct, as Python dict keys
are). -/
theorem editProps_empty_resp (props : List (String × JSchema))
    (data out : List (String × Yaml)) (resp : String → Option String)
    (key : String) (p : JSchema)
    (hnodup : (props.map Prod.fst).Nodup) (hmem : (key, p) ∈ props)
    (hr : resp key = none ∨ resp key = some "")
    (h : editProps data props resp = some out) :
    getKey out key = getKey data key := by
  induction props generalizing data with
  | nil => simp at hmem
  | cons q rest ih =>
      obtain ⟨k₀, p₀⟩ := q
      have hnodup' : (rest.map Prod.fst).Nodup :=
        (List.nodup_cons.mp (by simpa using hnodup)).2
      have hnotin : k₀ ∉ rest.map Prod.fst :=
        (List.nodup_cons.mp (by simpa using hnodup)).1
      simp only [editProps] at h
      cases hstep : editStep data k₀ p₀ (resp k₀) with
      | none => simp [hstep] at h
      | some dnext =>
          simp only [hstep] at h
          rcases List.mem_cons.mp hmem with heq | hmem'
          · cases heq
            have hid := editStep_identity data key p (resp key) hr
            rw [hid] at hstep
            cases Option.some.inj hstep
            exact editProps_frame rest data out resp key h (by
              simpa using hnotin)
          · have hne : ¬ key = k₀ := by
              intro e
              subst e
              exact hnotin (List.mem_map.mpr ⟨(key, p), hmem', rfl⟩)
            rw [ih dnext hnodup' hmem' h]
            exact editStep_other data dnext k₀ key p₀ (resp k₀) hne hstep

/-- C10: in the CLI editor, a property prompt answered empty (or
cancelled) leaves that key's binding untouched — an existing value is
kept, no entry is created for an absent key — and every key not listed in
the schema's properties is untouched as well. -/
theorem C10_empty_response_frame (data : List (String × Yaml))
    (schema : JSchema) (resp : String → Option String)
    (out : List (String × Yaml))
    (h : edit_contract data schema resp = some out) :
    (∀ k', k' ∉ (schema.properties.getD []).map Prod.fst →
      getKey out k' = getKey data k') ∧
    (∀ key p t, ((schema.properties.getD []).map Prod.fst).Nodup →
      (key, p) ∈ schema.properties.getD [] →
      p.stype = some t →
      t ∈ (["string", "number", "integer", "boolean"] : List String) →
      (resp key = none ∨ resp key = some "") →
      getKey out key = getKey data key) := by
  constructor
  · intro k' hk'
    exact editProps_frame _ data out resp k' h hk'
  · intro key p t hnodup hmem hst htin hr
    exact editProps_empty_resp _ data out resp key p hnodup hmem hr h

/-- C10 witness: a two-property schema; `id` is answered empty and keeps
its old value, `name` is answered `Bob` and is added, and the
out-of-schema key `extra` is untouched. -/
theorem C10_empty_response_frame_witness :
    edit_contract [("id", .ystr "old"), ("extra", .yint 5)]
        (JSchema.mk none []
          (some [("id", JSchema.mk (some "string") [] none none none none none),
                 ("name", JSchema.mk (some "string") [] none none none none none)])
          none none none none)
        (fun k => if k = "name" then some "Bob" else some "")
      = some [("id", .ystr "old"), ("extra", .yint 5), ("name", .ystr "Bob")] ∧
    getKey [("id", .ystr "old"), ("extra", .yint 5), ("name", .ystr "Bob")]
        "extra"
      = getKey [("id", .ystr "old"), ("extra", .yint 5)] "extra" ∧
    getKey [("id", .ystr "old"), ("extra", .yint 5), ("name", .ystr "Bob")]
        "id"
      = getKey [("id", .ystr "old"), ("extra", .yint 5)] "id" := by
  have heval : edit_contract [("id", .ystr "old"), ("extra", .yint 5)]
      (JSchema.mk none []
        (some [("id", JSchema.mk (some "string") [] none none none none none),
               ("name", JSchema.mk (some "string") [] none none none none none)])
        none none none none)
      (fun k => if k = "name" then some "Bob" else some "")
    = some [("id", .ystr "old"), ("extra", .yint 5), ("name", .ystr "Bob")] := by
    rfl
  have h := C10_empty_response_frame _ _ _ _ heval
  refine ⟨heval, ?_, ?_⟩
  · exact h.1 "extra" (by simp [JSchema.properties])
  · exact h.2 "id" (JSchema.mk (some "string") [] none none none none none)
      "string" (by simp [JSchema.properties]) (by simp [JSchema.properties])
      rfl (by decide) (Or.inr (by simp))

end Kindergeld
